import Mathlib

/-!
# Verification of the realtime messaging page (`src/client/src/pages/messages.tsx`)

A shallow embedding of the realtime-synchronization core of the messages page:
the channel-name derivation, the postgres-changes relevance filter, the
typing-presence timers (a single shared `typingTimeoutRef` slot holding either
the local 2-second idle timer or the remote 3-second expiry timer), the send
handler, and the subscription lifecycle of the realtime `useEffect`.

Time is modelled as a logical clock in milliseconds (`Nat`); a `setTimeout`
becomes a pending `Timer` with an absolute fire time, stored in the single
mutable slot exactly as the source stores both timeout handles in
`typingTimeoutRef`.
-/

namespace Messages

/-- The two callbacks the source passes to `setTimeout`:
`sendTypingFalse` is the local idle callback `() => sendTypingEvent(false)`
(2000 ms), `hideTyping` is the remote expiry callback
`() => setIsTyping(false)` (3000 ms). -/
inductive TimerKind
  | sendTypingFalse
  | hideTyping
  deriving DecidableEq, Repr

/-- A pending `setTimeout`: absolute fire time (ms) and which callback runs. -/
structure Timer where
  fireAt : Nat
  kind : TimerKind
  deriving DecidableEq, Repr

/-- Component state relevant to the claims: the draft (`messageInput` state),
the remote-typing flag (`isTyping` state) and the single shared timeout slot
(`typingTimeoutRef`). -/
structure TypingState where
  messageInput : String
  isTyping : Bool
  timeoutRef : Option Timer
  deriving DecidableEq, Repr

/-- Initial component state: empty draft, no remote typing, no pending timer. -/
def s0 : TypingState := ⟨"", false, none⟩

/-- React-query cache keys invalidated by the handlers. -/
inductive QueryKey
  | messages (peerId : String)
  | conversations
  deriving DecidableEq, Repr

/-- Externally visible effects emitted by the handlers. -/
inductive OutEvent
  | typingBroadcast (userId : String) (typing : Bool)
  | createMessage (receiverId : String) (content : String)
  | invalidate (key : QueryKey)
  deriving DecidableEq, Repr

/-- JavaScript `[a, b].sort()` on two strings: lexicographically smaller
element first (default comparator; stable, so equal elements keep order). -/
def jsSortPair (a b : String) : String × String :=
  if a ≤ b then (a, b) else (b, a)

/-- The channel-name derivation of the source (lines 99-100 and 190-191):
`const userIds = [currentUser.id, selectedUserId].sort();
 const channelName = \x7bchat-$userIds[0]-$userIds[1]\x7d`. -/
def channelName (currentUserId selectedUserId : String) : String :=
  let userIds := jsSortPair currentUserId selectedUserId
  "chat-" ++ userIds.1 ++ "-" ++ userIds.2

/-- The relevance filter of the postgres-changes handler (lines 117-119):
`(newMessage.sender_id === currentUser.id && newMessage.receiver_id === selectedUserId) ||
 (newMessage.sender_id === selectedUserId && newMessage.receiver_id === currentUser.id)`. -/
def isRelevant (senderId receiverId currentUserId selectedUserId : String) : Bool :=
  (senderId == currentUserId && receiverId == selectedUserId) ||
  (senderId == selectedUserId && receiverId == currentUserId)

/-- The postgres-changes INSERT handler (lines 112-127): if the inserted
message is relevant, invalidate the message thread of the selected peer and
the conversation list; otherwise do nothing. -/
def postgresChangesHandler (currentUserId selectedUserId senderId receiverId : String) :
    List QueryKey :=
  if isRelevant senderId receiverId currentUserId selectedUserId then
    [QueryKey.messages selectedUserId, QueryKey.conversations]
  else
    []

/-- The broadcast `typing` handler (lines 130-148): only reacts when the
declared sender is the selected peer; sets `isTyping` to the payload value;
when the payload is `true`, clears the previous timeout (whatever it held)
and starts the 3-second expiry timer; when `false`, the timeout slot is left
untouched. -/
def broadcastTypingHandler (now : Nat) (selectedUserId userId : String) (typing : Bool)
    (s : TypingState) : TypingState :=
  if userId == selectedUserId then
    let s1 := { s with isTyping := typing }
    if typing then
      { s1 with timeoutRef := some ⟨now + 3000, TimerKind.hideTyping⟩ }
    else
      s1
  else
    s

/-- `handleInputChange` (lines 201-221): store the new draft; if non-empty,
broadcast `typing:true` immediately, clear the previous timeout and start the
2-second idle timer; if empty, broadcast `typing:false` (timeout untouched). -/
def handleInputChange (currentUserId : String) (now : Nat) (value : String)
    (s : TypingState) : TypingState × List OutEvent :=
  let s1 := { s with messageInput := value }
  if 0 < value.length then
    ({ s1 with timeoutRef := some ⟨now + 2000, TimerKind.sendTypingFalse⟩ },
     [OutEvent.typingBroadcast currentUserId true])
  else
    (s1, [OutEvent.typingBroadcast currentUserId false])

/-- JavaScript `String.prototype.trim()`: drop whitespace from both ends. -/
def jsTrim (s : String) : String :=
  ⟨((s.data.dropWhile Char.isWhitespace).reverse.dropWhile Char.isWhitespace).reverse⟩

/-- `handleSendMessage` (lines 167-177): if the trimmed draft is non-empty and
a peer is selected, broadcast `typing:false` and issue the create-message
request with the trimmed content; otherwise do nothing.  The timeout slot is
not touched in either branch. -/
def handleSendMessage (currentUserId : String) (selectedUserId : Option String)
    (s : TypingState) : TypingState × List OutEvent :=
  match selectedUserId with
  | some peer =>
    if jsTrim s.messageInput = "" then
      (s, [])
    else
      (s, [OutEvent.typingBroadcast currentUserId false,
           OutEvent.createMessage peer (jsTrim s.messageInput)])
  | none => (s, [])

/-- `sendMessageMutation.onSuccess` (lines 71-75): invalidate the message
thread and the conversation list, then clear the draft. -/
def onSendSuccess (selectedUserId : String) (s : TypingState) :
    TypingState × List QueryKey :=
  ({ s with messageInput := "" },
   [QueryKey.messages selectedUserId, QueryKey.conversations])

/-- Run the pending timeout callback, if any.  Firing consumes the pending
timer: `sendTypingFalse` broadcasts `typing:false`, `hideTyping` clears the
remote-typing flag. -/
def fireTimer (currentUserId : String) (s : TypingState) : TypingState × List OutEvent :=
  match s.timeoutRef with
  | some t =>
    match t.kind with
    | TimerKind.sendTypingFalse =>
        ({ s with timeoutRef := none },
         [OutEvent.typingBroadcast currentUserId false])
    | TimerKind.hideTyping =>
        ({ s with isTyping := false, timeoutRef := none }, [])
  | none => (s, [])

/-- Advance the logical clock to `now`: the pending timer fires (at its own
fire time) when it is due. -/
def deliverTimers (currentUserId : String) (now : Nat) (s : TypingState) :
    TypingState × List (Nat × OutEvent) :=
  match s.timeoutRef with
  | some t =>
    if t.fireAt ≤ now then
      let r := fireTimer currentUserId s
      (r.1, r.2.map fun o => (t.fireAt, o))
    else
      (s, [])
  | none => (s, [])

/-- External stimuli arriving at the component while a conversation is
active. -/
inductive InEvent
  | input (value : String)
  | typingMsg (userId : String) (typing : Bool)
  | pgInsert (senderId receiverId : String)
  | sendClick
  deriving DecidableEq, Repr

/-- Process one stimulus at time `now`: any timer due by `now` fires first,
then the corresponding source handler runs. -/
def stepEvent (currentUserId selectedUserId : String) (now : Nat) (e : InEvent)
    (s : TypingState) : TypingState × List (Nat × OutEvent) :=
  let r0 := deliverTimers currentUserId now s
  match e with
  | InEvent.input v =>
      let r1 := handleInputChange currentUserId now v r0.1
      (r1.1, r0.2 ++ r1.2.map fun o => (now, o))
  | InEvent.typingMsg uid b =>
      (broadcastTypingHandler now selectedUserId uid b r0.1, r0.2)
  | InEvent.pgInsert sdr rcv =>
      (r0.1, r0.2 ++ (postgresChangesHandler currentUserId selectedUserId sdr rcv).map
        fun k => (now, OutEvent.invalidate k))
  | InEvent.sendClick =>
      let r1 := handleSendMessage currentUserId (some selectedUserId) r0.1
      (r1.1, r0.2 ++ r1.2.map fun o => (now, o))

/-- Process a time-stamped event trace in order. -/
def runEvents (currentUserId selectedUserId : String) :
    List (Nat × InEvent) → TypingState → TypingState × List (Nat × OutEvent)
  | [], s => (s, [])
  | (t, e) :: rest, s =>
      let r1 := stepEvent currentUserId selectedUserId t e s
      let r2 := runEvents currentUserId selectedUserId rest r1.1
      (r2.1, r1.2 ++ r2.2)

/-- Process an event trace, then let the clock run to `endTime` so that a
still-pending timer due by then fires. -/
def runUntil (currentUserId selectedUserId : String) (events : List (Nat × InEvent))
    (endTime : Nat) (s : TypingState) : TypingState × List (Nat × OutEvent) :=
  let r1 := runEvents currentUserId selectedUserId events s
  let r2 := deliverTimers currentUserId endTime r1.1
  (r2.1, r1.2 ++ r2.2)

/-- C8: the derived channel topic is symmetric in the two participants. -/
theorem channelName_symm (a b : String) : channelName a b = channelName b a := by
  unfold channelName jsSortPair
  rcases le_total a b with h | h
  · by_cases hba : b ≤ a
    · have : a = b := le_antisymm h hba
      simp [this]
    · simp [h, hba]
  · by_cases hab : a ≤ b
    · have : a = b := le_antisymm hab h
      simp [this]
    · simp [h, hab]

/-- The relevance filter, restated as a proposition. -/
lemma isRelevant_iff (sdr rcv c p : String) :
    isRelevant sdr rcv c p = true ↔ ((sdr = c ∧ rcv = p) ∨ (sdr = p ∧ rcv = c)) := by
  unfold isRelevant
  simp [Bool.or_eq_true, Bool.and_eq_true, beq_iff_eq]

/-- C1: the postgres-changes handler invalidates the thread of the selected
peer and the conversation list exactly when the inserted message's
sender/receiver pair matches (currentUser, selectedPeer) in either direction;
consequently an event about a message between `x` and `y` never invalidates
an active conversation between `x` and a different peer `z`. -/
theorem postgresChangesHandler_relevance (c p s r : String) :
    (postgresChangesHandler c p s r = [QueryKey.messages p, QueryKey.conversations]
      ↔ ((s = c ∧ r = p) ∨ (s = p ∧ r = c)))
    ∧ (∀ x y z : String, z ≠ y →
        postgresChangesHandler x z x y = [] ∧ postgresChangesHandler x z y x = []) := by
  constructor
  · unfold postgresChangesHandler
    by_cases h : isRelevant s r c p = true
    · rw [if_pos h]
      exact iff_of_true rfl ((isRelevant_iff s r c p).mp h)
    · rw [if_neg h]
      exact iff_of_false (by simp) fun hc => h ((isRelevant_iff s r c p).mpr hc)
  · intro x y z hzy
    constructor
    · unfold postgresChangesHandler
      have hneg : ¬ isRelevant x y x z = true := by
        intro h
        rcases (isRelevant_iff x y x z).mp h with ⟨_, h2⟩ | ⟨h1, h2⟩
        · exact hzy h2.symm
        · exact hzy (h1.symm.trans h2.symm)
      rw [if_neg hneg]
    · unfold postgresChangesHandler
      have hneg : ¬ isRelevant y x x z = true := by
        intro h
        rcases (isRelevant_iff y x x z).mp h with ⟨h1, h2⟩ | ⟨h1, _⟩
        · exact hzy (h2.symm.trans h1.symm)
        · exact hzy h1.symm
      rw [if_neg hneg]

/-- Concrete instance of the relevance filter: a message from `u1` to `u2`
does not invalidate an active conversation between `u1` and `u3`. -/
theorem postgresChangesHandler_relevance_witness :
    postgresChangesHandler "u1" "u3" "u1" "u2" = [] :=
  ((postgresChangesHandler_relevance "u1" "u3" "u1" "u2").2 "u1" "u2" "u3"
    (by decide)).1

/-- C9: sending a draft of `"  hello  "` issues the create-message request
with the trimmed content `"hello"` (after the immediate `typing:false`
broadcast); sending an empty draft, a whitespace-only draft, or sending with
no peer selected is a no-op: no output and no state change. -/
theorem handleSendMessage_trim_and_noop (cu peer : String) (s : TypingState) :
    (handleSendMessage cu (some peer) { s with messageInput := "  hello  " }).2
      = [OutEvent.typingBroadcast cu false, OutEvent.createMessage peer "hello"]
    ∧ handleSendMessage cu (some peer) { s with messageInput := "" }
        = ({ s with messageInput := "" }, [])
    ∧ handleSendMessage cu (some peer) { s with messageInput := "   " }
        = ({ s with messageInput := "   " }, [])
    ∧ handleSendMessage cu none s = (s, []) := by
  have h1 : jsTrim "  hello  " = "hello" := by decide
  have h2 : jsTrim "   " = "" := by decide
  have h3 : jsTrim "" = "" := by decide
  refine ⟨?_, ?_, ?_, rfl⟩
  · simp [handleSendMessage, h1]
  · simp [handleSendMessage, h3]
  · simp [handleSendMessage, h2]

/-- Firing the pending timeout never touches the draft. -/
lemma fireTimer_messageInput (cu : String) (s : TypingState) :
    (fireTimer cu s).1.messageInput = s.messageInput := by
  rcases hs : s.timeoutRef with _ | ⟨fa, k⟩
  · simp [fireTimer, hs]
  · cases k <;> simp [fireTimer, hs]

/-- Advancing the clock never touches the draft. -/
lemma deliverTimers_messageInput (cu : String) (now : Nat) (s : TypingState) :
    (deliverTimers cu now s).1.messageInput = s.messageInput := by
  rcases hs : s.timeoutRef with _ | ⟨fa, k⟩
  · simp [deliverTimers, hs]
  · by_cases hle : fa ≤ now
    · cases k <;> simp [deliverTimers, fireTimer, hs, hle]
    · simp [deliverTimers, hs, hle]

/-- C10: incoming realtime events never modify the draft: processing a
broadcast typing event or a postgres change event (including any timer due at
that moment) leaves `messageInput` unchanged, and an explicit send leaves the
draft in place as well; the draft is cleared (set to `""`) exactly by the
send-success callback. -/
theorem realtime_events_preserve_draft (s : TypingState) (now : Nat)
    (cu sel uid sdr rcv peer : String) (b : Bool) :
    (stepEvent cu sel now (InEvent.typingMsg uid b) s).1.messageInput = s.messageInput
    ∧ (stepEvent cu sel now (InEvent.pgInsert sdr rcv) s).1.messageInput = s.messageInput
    ∧ (handleSendMessage cu (some peer) s).1.messageInput = s.messageInput
    ∧ (onSendSuccess peer s).1.messageInput = "" := by
  refine ⟨?_, ?_, ?_, rfl⟩
  · have hd := deliverTimers_messageInput cu now s
    simp only [stepEvent]
    by_cases huid : (uid == sel) = true
    · by_cases hb : b
      · simp [broadcastTypingHandler, huid, hb, hd]
      · simp [broadcastTypingHandler, huid, hb, hd]
    · simp [broadcastTypingHandler, huid, hd]
  · have hd := deliverTimers_messageInput cu now s
    simp [stepEvent, hd]
  · unfold handleSendMessage
    by_cases h : jsTrim s.messageInput = ""
    · simp [h]
    · simp [h]

/-- C3 counterexample: both timer kinds live in the single slot
`typingTimeoutRef`.  A keystroke at t=0 leaves the local idle timer pending
(fires at 2000); a `typing:true` broadcast from the peer at t=100 then
replaces it with the remote expiry timer (fires at 3100), so starting a timer
of one kind cancels the pending timer of the other kind. -/
theorem shared_timer_slot_counterexample :
    ((handleInputChange "u1" 0 "a" s0).1.timeoutRef
        = some ⟨2000, TimerKind.sendTypingFalse⟩)
    ∧ ((broadcastTypingHandler 100 "u2" "u2" true
          (handleInputChange "u1" 0 "a" s0).1).timeoutRef
        = some ⟨3100, TimerKind.hideTyping⟩) := by
  constructor <;> rfl

/-- C3 (amended): starting a timer of either kind supersedes whatever timer
is pending — the same-kind restart never stacks, but because both kinds share
the one slot, a new timer of one kind also replaces a pending timer of the
other kind. -/
theorem timer_slot_supersede (cu sel v : String) (now : Nat) (s : TypingState)
    (hv : 0 < v.length) :
    (handleInputChange cu now v s).1.timeoutRef
      = some ⟨now + 2000, TimerKind.sendTypingFalse⟩
    ∧ (broadcastTypingHandler now sel sel true s).timeoutRef
      = some ⟨now + 3000, TimerKind.hideTyping⟩ := by
  constructor
  · simp [handleInputChange, hv]
  · simp [broadcastTypingHandler]

/-- Concrete instance of the amended C3 statement. -/
theorem timer_slot_supersede_witness :
    (0 < ("a" : String).length)
    ∧ (handleInputChange "u1" 5 "a" s0).1.timeoutRef
        = some ⟨2005, TimerKind.sendTypingFalse⟩
    ∧ (broadcastTypingHandler 5 "u2" "u2" true s0).timeoutRef
        = some ⟨3005, TimerKind.hideTyping⟩ :=
  ⟨by decide, (timer_slot_supersede "u1" "u2" "a" 5 s0 (by decide)).1,
    (timer_slot_supersede "u1" "u2" "a" 5 s0 (by decide)).2⟩

/-- C5: a `typing:true` broadcast from the selected peer sets the
remote-typing flag and arms the 3-second expiry timer; with no follow-up
events the flag is still up before t+3000 and has flipped back to false once
the clock passes t+3000; a second `typing:true` replaces (never stacks with)
the pending expiry timer. -/
theorem remote_typing_expiry (cu sel : String) (s : TypingState) (t t2 T : Nat)
    (hT : t + 3000 ≤ T) :
    ((broadcastTypingHandler t sel sel true s).isTyping = true)
    ∧ ((broadcastTypingHandler t sel sel true s).timeoutRef
        = some ⟨t + 3000, TimerKind.hideTyping⟩)
    ∧ (∀ T2, T2 < t + 3000 →
        (runUntil cu sel [] T2 (broadcastTypingHandler t sel sel true s)).1.isTyping = true)
    ∧ ((runUntil cu sel [] T (broadcastTypingHandler t sel sel true s)).1.isTyping = false)
    ∧ ((broadcastTypingHandler t2 sel sel true
          (broadcastTypingHandler t sel sel true s)).timeoutRef
        = some ⟨t2 + 3000, TimerKind.hideTyping⟩) := by
  refine ⟨by simp [broadcastTypingHandler], by simp [broadcastTypingHandler], ?_, ?_, ?_⟩
  · intro T2 hT2
    have hn : ¬ (t + 3000 ≤ T2) := by omega
    simp [broadcastTypingHandler, runUntil, runEvents, deliverTimers, hn]
  · simp [broadcastTypingHandler, runUntil, runEvents, deliverTimers, fireTimer, hT]
  · simp [broadcastTypingHandler]

/-- Concrete instance of C5: `typing:true` from the peer at t=0 with no
follow-up leaves the flag false once the clock reaches 3000. -/
theorem remote_typing_expiry_witness :
    (0 + 3000 ≤ 3000)
    ∧ (runUntil "u1" "u2" [] 3000
        (broadcastTypingHandler 0 "u2" "u2" true s0)).1.isTyping = false :=
  ⟨by decide, (remote_typing_expiry "u1" "u2" s0 0 500 3000 (by decide)).2.2.2.1⟩

/-- C6 counterexample: type `"hi"` at t=0 (idle timer armed for t=2000), then
send.  The send emits `typing:false` and the create request, but the pending
idle timer is NOT canceled: it is still in the slot and fires a stale
`typing:false` at t=2000. -/
theorem send_leaves_idle_timer_counterexample :
    (handleSendMessage "u1" (some "u2") (handleInputChange "u1" 0 "hi" s0).1).2
      = [OutEvent.typingBroadcast "u1" false, OutEvent.createMessage "u2" "hi"]
    ∧ (handleSendMessage "u1" (some "u2") (handleInputChange "u1" 0 "hi" s0).1).1.timeoutRef
      = some ⟨2000, TimerKind.sendTypingFalse⟩
    ∧ (runUntil "u1" "u2" [] 2000
        (handleSendMessage "u1" (some "u2") (handleInputChange "u1" 0 "hi" s0).1).1).2
      = [(2000, OutEvent.typingBroadcast "u1" false)] := by
  refine ⟨?_, ?_, ?_⟩ <;> rfl

/-- C6 (amended): on send with a non-empty trimmed draft and a selected peer,
a `typing:false` broadcast is emitted immediately (before the create
request); the pending local idle timer is NOT canceled and survives the send,
but if it later fires it only emits a redundant `typing:false`, never
`typing:true`. -/
theorem send_emits_typing_false (cu peer : String) (s : TypingState)
    (h : jsTrim s.messageInput ≠ "") :
    (handleSendMessage cu (some peer) s).2
      = [OutEvent.typingBroadcast cu false,
         OutEvent.createMessage peer (jsTrim s.messageInput)]
    ∧ (handleSendMessage cu (some peer) s).1.timeoutRef = s.timeoutRef
    ∧ (∀ o ∈ (fireTimer cu (handleSendMessage cu (some peer) s).1).2,
        o = OutEvent.typingBroadcast cu false) := by
  refine ⟨by simp [handleSendMessage, h], by simp [handleSendMessage, h], ?_⟩
  intro o ho
  simp only [handleSendMessage, if_neg h] at ho
  rcases hs : s.timeoutRef with _ | ⟨fa, k⟩
  · simp [fireTimer, hs] at ho
  · cases k <;> simp [fireTimer, hs] at ho
    exact ho

/-- Concrete instance of the amended C6 statement. -/
theorem send_emits_typing_false_witness :
    (jsTrim "hi" ≠ "")
    ∧ (handleSendMessage "u1" (some "u2") ⟨"hi", false, none⟩).2
      = [OutEvent.typingBroadcast "u1" false,
         OutEvent.createMessage "u2" (jsTrim "hi")] :=
  ⟨by decide, (send_emits_typing_false "u1" "u2" ⟨"hi", false, none⟩ (by decide)).1⟩

/-- C7 counterexample: `typing:true` from the peer at t=0 arms the expiry
timer for t=3000; `typing:false` at t=100 clears the flag but does NOT cancel
the expiry timer — the handler only calls `clearTimeout` when the payload is
`true`, so the timer is still pending. -/
theorem typing_false_leaves_expiry_timer_counterexample :
    (broadcastTypingHandler 100 "u2" "u2" false
        (broadcastTypingHandler 0 "u2" "u2" true s0)).isTyping = false
    ∧ (broadcastTypingHandler 100 "u2" "u2" false
        (broadcastTypingHandler 0 "u2" "u2" true s0)).timeoutRef
      = some ⟨3000, TimerKind.hideTyping⟩ := by
  constructor <;> rfl

/-- C7 (amended): on `typing:false` from the selected peer, the remote-typing
flag is set to false; the pending expiry timer is NOT canceled (the slot is
left untouched), but its later firing can only leave the flag false. -/
theorem typing_false_sets_flag (cu sel : String) (now : Nat) (s : TypingState) :
    (broadcastTypingHandler now sel sel false s).isTyping = false
    ∧ (broadcastTypingHandler now sel sel false s).timeoutRef = s.timeoutRef
    ∧ (fireTimer cu (broadcastTypingHandler now sel sel false s)).1.isTyping = false := by
  refine ⟨by simp [broadcastTypingHandler], by simp [broadcastTypingHandler], ?_⟩
  rcases hs : s.timeoutRef with _ | ⟨fa, k⟩
  · simp [fireTimer, broadcastTypingHandler, hs]
  · cases k <;> simp [fireTimer, broadcastTypingHandler, hs]

/-- Primitive actions on the realtime client's channel set:
`supabase.removeChannel(channel)` and the `supabase.channel(...).subscribe()`
chain of the effect body. -/
inductive ChanAction
  | removeChannel (topic : String)
  | openChannel (topic : String)
  deriving DecidableEq, Repr

/-- Subscription state of the messages page: the topic of the live channel
opened by the realtime effect, if one is open. -/
structure SubState where
  live : Option String
  deriving DecidableEq, Repr

/-- Before the first effect run no channel is open. -/
def initialSub : SubState := ⟨none⟩

/-- The list of channels a `SubState` holds open (at most one). -/
def optList : Option String → List String
  | some t => [t]
  | none => []

/-- One run of the realtime `useEffect` (lines 93-161) under React's effect
semantics: when the selected peer changes, the previous effect's cleanup runs
first (`supabase.removeChannel(channel)`), then the new effect body runs and,
when a peer is selected, opens the channel for the derived topic and
subscribes. -/
def selectPeer (currentUserId : String) (newPeer : Option String) (s : SubState) :
    SubState × List ChanAction :=
  let cleanup : List ChanAction :=
    match s.live with
    | some t => [ChanAction.removeChannel t]
    | none => []
  match newPeer with
  | some p =>
      (⟨some (channelName currentUserId p)⟩,
       cleanup ++ [ChanAction.openChannel (channelName currentUserId p)])
  | none => (⟨none⟩, cleanup)

/-- Process a sequence of peer selections (including deselection/unmount as
`none`), collecting the emitted channel actions in order. -/
def runSelections (currentUserId : String) (s : SubState) :
    List (Option String) → SubState × List ChanAction
  | [] => (s, [])
  | p :: ps =>
      let r1 := selectPeer currentUserId p s
      let r2 := runSelections currentUserId r1.1 ps
      (r2.1, r1.2 ++ r2.2)

/-- The channels open after a sequence of channel actions, starting from the
open-channel list `l`. -/
def liveChannels (l : List String) : List ChanAction → List String
  | [] => l
  | ChanAction.removeChannel t :: rest => liveChannels (l.erase t) rest
  | ChanAction.openChannel t :: rest => liveChannels (t :: l) rest

lemma liveChannels_append (l : List String) (a b : List ChanAction) :
    liveChannels l (a ++ b) = liveChannels (liveChannels l a) b := by
  induction a generalizing l with
  | nil => rfl
  | cons x rest ih => cases x <;> simp [liveChannels, ih]

lemma optList_length (o : Option String) : (optList o).length ≤ 1 := by
  cases o <;> simp [optList]

/-- Within one effect run, every prefix of the emitted actions keeps at most
one channel open. -/
lemma selectPeer_take_safe (u : String) (p : Option String) (s : SubState) (n : Nat) :
    (liveChannels (optList s.live) (((selectPeer u p s).2).take n)).length ≤ 1 := by
  rcases s with ⟨_ | t⟩ <;> rcases p with _ | q <;>
    match n with
    | 0 => simp [liveChannels, optList, List.take]
    | 1 => simp [selectPeer, liveChannels, optList, List.take]
    | Nat.succ (Nat.succ m) => simp [selectPeer, liveChannels, optList, List.take]

/-- After one effect run the open channels are exactly those of the new
state. -/
lemma selectPeer_final (u : String) (p : Option String) (s : SubState) :
    liveChannels (optList s.live) (selectPeer u p s).2 = optList (selectPeer u p s).1.live := by
  rcases s with ⟨_ | t⟩ <;> rcases p with _ | q <;>
    simp [selectPeer, liveChannels, optList]

lemma runSelections_safe (u : String) (sel : List (Option String)) (s : SubState) :
    (∀ n, (liveChannels (optList s.live) (((runSelections u s sel).2).take n)).length ≤ 1)
    ∧ liveChannels (optList s.live) (runSelections u s sel).2
        = optList (runSelections u s sel).1.live := by
  induction sel generalizing s with
  | nil =>
    refine ⟨fun n => ?_, rfl⟩
    simp [runSelections, liveChannels, optList_length]
  | cons p ps ih =>
    obtain ⟨ih1, ih2⟩ := ih (selectPeer u p s).1
    constructor
    · intro n
      have hsplit :
          ((runSelections u s (p :: ps)).2).take n
            = ((selectPeer u p s).2).take n
              ++ ((runSelections u (selectPeer u p s).1 ps).2).take
                  (n - ((selectPeer u p s).2).length) := by
        simp [runSelections, List.take_append_eq_append_take]
      rw [hsplit, liveChannels_append]
      by_cases hn : n ≤ ((selectPeer u p s).2).length
      · by_cases hn2 : n < ((selectPeer u p s).2).length
        · have hz : n - ((selectPeer u p s).2).length = 0 := by omega
          rw [hz]
          simpa [liveChannels] using selectPeer_take_safe u p s n
        · have hfull : n = ((selectPeer u p s).2).length := by omega
          have hz : n - ((selectPeer u p s).2).length = 0 := by omega
          rw [hz]
          simpa [liveChannels] using selectPeer_take_safe u p s n
      · have htake : ((selectPeer u p s).2).take n = (selectPeer u p s).2 := by
          exact List.take_of_length_le (by omega)
        rw [htake, selectPeer_final]
        exact ih1 _
    · simp only [runSelections, liveChannels_append, selectPeer_final]
      exact ih2

/-- C2: for every sequence of peer selections starting from the idle page, at
most one realtime channel is open at any instant — after every prefix of the
emitted channel actions the set of open channels has size at most one — and
when peer `c` is selected while the channel for peer `b` is live, the removal
of `b`'s channel is emitted strictly before the opening of `c`'s channel. -/
theorem single_live_subscription (u : String) (sel : List (Option String)) (n : Nat) :
    (liveChannels [] ((runSelections u initialSub sel).2.take n)).length ≤ 1
    ∧ ∀ b c : String,
        (selectPeer u (some c) ⟨some (channelName u b)⟩).2
          = [ChanAction.removeChannel (channelName u b),
             ChanAction.openChannel (channelName u c)] := by
  constructor
  · exact (runSelections_safe u sel initialSub).1 n
  · intro b c
    rfl

/-- A keystroke chain after a keystroke at time `t`: each subsequent
keystroke is strictly later than, and less than 2000 ms after, its
predecessor, and every typed value is non-empty. -/
def chainedFrom (t : Nat) : List (Nat × String) → Bool
  | [] => true
  | (t2, v) :: rest =>
      decide (t < t2) && decide (t2 < t + 2000) && decide (0 < v.length)
        && chainedFrom t2 rest

/-- The time of the last keystroke in the chain (default `t`). -/
def lastTime (t : Nat) (ks : List (Nat × String)) : Nat :=
  ks.foldl (fun _ p => p.1) t

/-- Running a chain of keystrokes while the idle timer armed at `t` is
pending emits exactly one `typing:true` per keystroke (no `typing:false`),
and leaves the idle timer armed 2000 ms after the last keystroke. -/
lemma runEvents_keystrokes (cu sel : String) (t : Nat) (ks : List (Nat × String))
    (s : TypingState)
    (hstart : s.timeoutRef = some ⟨t + 2000, TimerKind.sendTypingFalse⟩)
    (hks : chainedFrom t ks = true) :
    (runEvents cu sel (ks.map fun p => (p.1, InEvent.input p.2)) s).2
      = ks.map (fun p => (p.1, OutEvent.typingBroadcast cu true))
    ∧ (runEvents cu sel (ks.map fun p => (p.1, InEvent.input p.2)) s).1.timeoutRef
      = some ⟨lastTime t ks + 2000, TimerKind.sendTypingFalse⟩ := by
  induction ks generalizing t s with
  | nil =>
    refine ⟨rfl, ?_⟩
    simpa [runEvents, lastTime] using hstart
  | cons p rest ih =>
    obtain ⟨t2, v⟩ := p
    simp only [chainedFrom, Bool.and_eq_true, decide_eq_true_eq] at hks
    obtain ⟨⟨⟨h1, h2⟩, h3⟩, h4⟩ := hks
    have hnofire : ¬ (t + 2000 ≤ t2) := by omega
    have hstep : stepEvent cu sel t2 (InEvent.input v) s
        = ({ messageInput := v, isTyping := s.isTyping,
             timeoutRef := some ⟨t2 + 2000, TimerKind.sendTypingFalse⟩ },
           [(t2, OutEvent.typingBroadcast cu true)]) := by
      simp [stepEvent, deliverTimers, hstart, hnofire, handleInputChange, h3]
    obtain ⟨ih1, ih2⟩ := ih t2
      ({ messageInput := v, isTyping := s.isTyping,
         timeoutRef := some ⟨t2 + 2000, TimerKind.sendTypingFalse⟩ }) rfl h4
    constructor
    · simp only [List.map_cons, runEvents, hstep]
      rw [ih1]
      simp
    · simp only [List.map_cons, runEvents, hstep]
      rw [ih2]
      simp [lastTime]

/-- C4: for every non-empty chain of keystrokes less than 2000 ms apart, a
`typing:true` broadcast is emitted at the instant of each keystroke, no
`typing:false` is emitted between keystrokes, and once the clock passes
2000 ms after the last keystroke a single `typing:false` is emitted exactly
2000 ms after that last keystroke. -/
theorem typing_idle_debounce (cu sel : String) (t1 : Nat) (v1 : String)
    (rest : List (Nat × String)) (T : Nat)
    (hv1 : 0 < v1.length)
    (hrest : chainedFrom t1 rest = true)
    (hT : lastTime t1 rest + 2000 ≤ T) :
    (runUntil cu sel (((t1, v1) :: rest).map fun p => (p.1, InEvent.input p.2)) T s0).2
      = ((t1, v1) :: rest).map (fun p => (p.1, OutEvent.typingBroadcast cu true))
        ++ [(lastTime t1 rest + 2000, OutEvent.typingBroadcast cu false)] := by
  have hstep : stepEvent cu sel t1 (InEvent.input v1) s0
      = ({ messageInput := v1, isTyping := false,
           timeoutRef := some ⟨t1 + 2000, TimerKind.sendTypingFalse⟩ },
         [(t1, OutEvent.typingBroadcast cu true)]) := by
    simp [stepEvent, deliverTimers, s0, handleInputChange, hv1]
  obtain ⟨ho, ht⟩ := runEvents_keystrokes cu sel t1 rest
    ({ messageInput := v1, isTyping := false,
       timeoutRef := some ⟨t1 + 2000, TimerKind.sendTypingFalse⟩ }) rfl hrest
  have hfire : (deliverTimers cu T
      (runEvents cu sel (rest.map fun p => (p.1, InEvent.input p.2))
        ({ messageInput := v1, isTyping := false,
           timeoutRef := some ⟨t1 + 2000, TimerKind.sendTypingFalse⟩ })).1).2
      = [(lastTime t1 rest + 2000, OutEvent.typingBroadcast cu false)] := by
    simp [deliverTimers, fireTimer, ht, hT]
  simp only [List.map_cons, runUntil, runEvents, hstep]
  rw [ho, hfire]
  simp

/-- Concrete instance of C4: keystrokes at t=0 and t=1000 emit `typing:true`
at 0 and 1000 and a single `typing:false` at 3000 (2000 ms after the last
keystroke). -/
theorem typing_idle_debounce_witness :
    (0 < ("h" : String).length)
    ∧ chainedFrom 0 [(1000, "hi")] = true
    ∧ lastTime 0 [(1000, "hi")] + 2000 ≤ 3000
    ∧ (runUntil "u1" "u2"
        [(0, InEvent.input "h"), (1000, InEvent.input "hi")] 3000 s0).2
      = [(0, OutEvent.typingBroadcast "u1" true),
         (1000, OutEvent.typingBroadcast "u1" true),
         (3000, OutEvent.typingBroadcast "u1" false)] :=
  ⟨by decide, by decide, by decide, by
    simpa using typing_idle_debounce "u1" "u2" 0 "h" [(1000, "hi")] 3000
      (by decide) (by decide) (by decide)⟩

end Messages
